import Mathlib

/-!
Verification of the PREP editorial classifier from `src/app/api/scrape/route.ts`.

Strings are modelled as `List Char` (UTF-16 length and codepoint count agree on
the BMP text this program handles).  A JavaScript value that is either a string
or `undefined` is modelled as `Option (List Char)`, with `none` standing for
`undefined`.  Array indexing with a possibly negative index, the `Set<string>`
used for de-duplication and the falsy-`||` fallback chains are modelled
explicitly below, following the TypeScript source line by line.
-/

namespace PrepMaster

/-- Model of a JavaScript string: a list of characters. -/
abbrev Str := List Char

/-- Model of a JavaScript `string | undefined` value; `none` is `undefined`. -/
abbrev JStr := Option Str

/-- Characters matched by JavaScript `\s` (and trimmed by `String.prototype.trim`). -/
def isWS (c : Char) : Bool :=
  c = ' ' || c = '\t' || c = '\n' || c = '\r' || c = '\x0b' || c = '\x0c' ||
  c = '\u00a0' || c = '\u1680' || c = '\u2000' || c = '\u2001' || c = '\u2002' ||
  c = '\u2003' || c = '\u2004' || c = '\u2005' || c = '\u2006' || c = '\u2007' ||
  c = '\u2008' || c = '\u2009' || c = '\u200a' || c = '\u2028' || c = '\u2029' ||
  c = '\u202f' || c = '\u205f' || c = '\u3000' || c = '\ufeff'

/-- The three sentence terminators of the lookbehind `(?<=[.!?])`. -/
def isPunct (c : Char) : Bool :=
  c = '.' || c = '!' || c = '?'

/-- Model of JavaScript `trim`: drop `\s` characters from both ends. -/
def trimChars (s : Str) : Str :=
  ((s.dropWhile isWS).reverse.dropWhile isWS).reverse

/-- Whether the previously consumed character (head of the reversed accumulator)
is a sentence terminator, i.e. whether the lookbehind `(?<=[.!?])` succeeds. -/
def punctHead : Str → Bool
  | [] => false
  | c :: _ => isPunct c

/-- Single pass of `content.split(/(?<=[.!?])\s+/)`.  The state is `some acc`
while a fragment (reversed in `acc`) is being accumulated and `none` while the
maximal whitespace run of a separator is being consumed.  A separator starts at
a `\s` character whose predecessor is `.`, `!` or `?`. -/
def splitRun : Str → Option Str → List Str
  | [], some acc => [acc.reverse]
  | [], none => [[]]
  | c :: rest, some acc =>
    if isWS c && punctHead acc then acc.reverse :: splitRun rest none
    else splitRun rest (some (c :: acc))
  | c :: rest, none =>
    if isWS c then splitRun rest none else splitRun rest (some [c])

/-- The sentence splitter of `analyzePREP`:
`content.split(/(?<=[.!?])\s+/).filter((s) => s.trim().length > 10)`. -/
def splitSentences (content : Str) : List Str :=
  (splitRun content (some [])).filter (fun s => 10 < (trimChars s).length)

/-- Boolean list-prefix test, used to search for literal substrings. -/
def isPrefixB : Str → Str → Bool
  | [], _ => true
  | _ :: _, [] => false
  | p :: ps, c :: cs => p = c && isPrefixB ps cs

/-- Model of JavaScript `s.includes(pat)`: `pat` occurs contiguously in `s`. -/
def containsSub (s pat : Str) : Bool :=
  match s with
  | [] => pat.isEmpty
  | _ :: rest => isPrefixB pat s || containsSub rest pat

/-- The literal tag `[사설]` of the regex `\[사설\]\s*`. -/
def tagChars : Str := ("[사설]").data

/-- Model of `title.replace(/\[사설\]\s*/, "")`: remove the first occurrence of
the tag together with the greedy whitespace run following it. -/
def stripTag : Str → Str
  | [] => []
  | c :: rest =>
    if isPrefixB tagChars (c :: rest) then ((c :: rest).drop tagChars.length).dropWhile isWS
    else c :: stripTag rest

/-- A separator character of the regex `[,\s]+`. -/
def isSepC (c : Char) : Bool :=
  c = ',' || isWS c

/-- Single pass of `split(/[,\s]+/)`, in the same style as `splitRun`. -/
def splitSepsRun : Str → Option Str → List Str
  | [], some acc => [acc.reverse]
  | [], none => [[]]
  | c :: rest, some acc =>
    if isSepC c then acc.reverse :: splitSepsRun rest none
    else splitSepsRun rest (some (c :: acc))
  | c :: rest, none =>
    if isSepC c then splitSepsRun rest none else splitSepsRun rest (some [c])

/-- Model of `t.split(/[,\s]+/)`. -/
def splitSeps (t : Str) : List Str :=
  splitSepsRun t (some [])

/-- The title keywords of `analyzePREP`:
`title.replace(/\[사설\]\s*/, "").split(/[,\s]+/).filter((w) => w.length > 2)`. -/
def titleKeywordsOf (title : Str) : List Str :=
  (splitSeps (stripTag title)).filter (fun w => 2 < w.length)

/-- Predicate for the point1 candidate: the sentence contains some title keyword. -/
def point1Pred (kws : List Str) (s : Str) : Bool :=
  kws.any (fun kw => containsSub s kw)

/-- The `reasonKeywords` array of `analyzePREP`. -/
def reasonKeywords : List Str :=
  [("때문").data, ("이유").data, ("왜냐").data, ("근거").data, ("결함").data,
   ("문제").data, ("하자").data, ("모호").data, ("불명확").data, ("포괄적").data]

/-- Predicate for the reason candidate: the sentence contains some reason keyword. -/
def reasonPred (s : Str) : Bool :=
  reasonKeywords.any (fun kw => containsSub s kw)

/-- The literal-substring patterns among `examplePatterns` (all of them except `/\d+/`). -/
def examplePatternLits : List Str :=
  [("예를 들어").data, ("경우").data, ("사례").data, ("현장").data, ("실제").data,
   ("현재").data, ("구조").data, ("계약").data, ("기업").data]

/-- Predicate for the example candidate: `examplePatterns.some((p) => p.test(s))`,
where `/\d+/` tests for an ASCII digit and the other patterns are literals. -/
def examplePred (s : Str) : Bool :=
  s.any Char.isDigit || examplePatternLits.any (fun p => containsSub s p)

/-- The `conclusionKeywords` array of `analyzePREP`. -/
def conclusionKeywords : List Str :=
  [("촉구").data, ("필요").data, ("해야").data, ("바란다").data, ("되어야").data,
   ("요구").data, ("결국").data, ("따라서").data]

/-- Predicate for the point2 candidate: the sentence contains some conclusion keyword. -/
def conclusionPred (s : Str) : Bool :=
  conclusionKeywords.any (fun kw => containsSub s kw)

/-- Model of the JavaScript chain `a || b || ""` where `a` and `b` are
`string | undefined` values: the empty string and `undefined` are falsy. -/
def jsOrChain (a b : JStr) : Str :=
  match a with
  | some s => if s.isEmpty then b.getD [] else s
  | none => b.getD []

/-- Model of `sentences[i]` for an arbitrary (possibly negative) integer index:
out-of-range access yields `undefined`. -/
def jsNth (l : List Str) (i : Int) : JStr :=
  if 0 ≤ i then l[i.toNat]? else none

/-- Fuel-indexed model of the loop
`for (let i = fallbackIndex; i < sentences.length; i++)` in `getUniqueSentence`:
return the first value `sentences[i]` not in the `usedSentences` set, together
with `none` when the loop runs out.  The fuel bounds the remaining iterations. -/
def scanFuel (ss : List Str) (used : List JStr) : Nat → Int → Option JStr
  | 0, _ => none
  | n + 1, i =>
    if i < (ss.length : Int) then
      if jsNth ss i ∈ used then scanFuel ss used n (i + 1)
      else some (jsNth ss i)
    else none

/-- The loop of `getUniqueSentence`, started at `i` with exactly enough fuel. -/
def scanUnused (ss : List Str) (used : List JStr) (i : Int) : Option JStr :=
  scanFuel ss used ((ss.length : Int) - i).toNat i

/-- Specification-level description of the fallback scan for a non-negative
start index: the first sentence at or after index `k` not yet claimed. -/
def firstUnclaimed (ss : List Str) (used : List JStr) (k : Nat) : Option Str :=
  (ss.drop k).find? (fun s => decide (some s ∉ used))

/-- Model of `getUniqueSentence` from `analyzePREP`.  The mutable set
`usedSentences` is passed in and returned explicitly; the returned value is a
`JStr` because the loop can return `sentences[i]` for a negative `i`. -/
def getUniqueSentence (ss : List Str) (used : List JStr) (preferred : Str)
    (fallbackIndex : Int) : JStr × List JStr :=
  if preferred ≠ [] ∧ some preferred ∉ used then (some preferred, some preferred :: used)
  else
    match scanUnused ss used fallbackIndex with
    | some v => (v, v :: used)
    | none => (some preferred, used)

/-- The `PrepItem` interface. -/
structure PrepItem where
  summary : Str
  sourceText : JStr
  deriving DecidableEq, Repr

/-- The `AiPrepAnalysis` interface. -/
structure AiPrepAnalysis where
  point1 : PrepItem
  reason : PrepItem
  «example» : PrepItem
  point2 : PrepItem
  deriving DecidableEq, Repr

/-- The `BestPractice` interface. -/
structure BestPractice where
  point1 : Str
  reason : Str
  «example» : Str
  point2 : Str
  deriving DecidableEq, Repr

/-- The summary template of the point1 item (it embeds the first 30 characters
of the tag-stripped title). -/
def point1Summary (title : Str) : Str :=
  ("이 사설은 \"").data ++ (stripTag title).take 30 ++
    ("...\"에 대해 비판적 입장을 취하며, 근본적인 문제점을 지적합니다.").data

/-- The fixed summary of the reason item. -/
def reasonSummary : Str :=
  ("법/정책 자체의 모호함과 불명확한 기준이 현장 혼란을 야기한다는 점을 근거로 제시합니다.").data

/-- The fixed summary of the example item. -/
def exampleSummary : Str :=
  ("구체적인 조항, 현장 사례, 예상되는 결과 등을 통해 주장을 뒷받침합니다.").data

/-- The fixed summary of the point2 item. -/
def point2Summary : Str :=
  ("현재 접근법의 한계를 지적하며 근본적인 재검토를 촉구합니다.").data

/-- The preferred point1 candidate:
`sentences.find((s) => titleKeywords.some((kw) => s.includes(kw))) || sentences[0] || ""`. -/
def point1PrefOf (content title : Str) : Str :=
  jsOrChain ((splitSentences content).find? (point1Pred (titleKeywordsOf title)))
    (splitSentences content)[0]?

/-- The preferred reason candidate. -/
def reasonPrefOf (content : Str) : Str :=
  jsOrChain ((splitSentences content).find? reasonPred) (splitSentences content)[1]?

/-- The preferred example candidate. -/
def examplePrefOf (content : Str) : Str :=
  jsOrChain ((splitSentences content).find? examplePred) (splitSentences content)[2]?

/-- The preferred point2 candidate (the fallback is the last sentence). -/
def point2PrefOf (content : Str) : Str :=
  jsOrChain ((splitSentences content).find? conclusionPred)
    (splitSentences content)[(splitSentences content).length - 1]?

/-- Model of `analyzePREP(content, title)`.  The four `getUniqueSentence` calls
are threaded in source order (point1, reason, example, point2) with fallback
start indices `0`, `1`, `2` and `sentences.length - 1`; the last index is an
integer because it is `-1` on an empty sentence list. -/
def analyzePREP (content title : Str) : AiPrepAnalysis :=
  let sentences := splitSentences content
  let r1 := getUniqueSentence sentences [] (point1PrefOf content title) 0
  let r2 := getUniqueSentence sentences r1.2 (reasonPrefOf content) 1
  let r3 := getUniqueSentence sentences r2.2 (examplePrefOf content) 2
  let r4 := getUniqueSentence sentences r3.2 (point2PrefOf content)
    ((sentences.length : Int) - 1)
  { point1 := { summary := point1Summary title, sourceText := r1.1 }
    reason := { summary := reasonSummary, sourceText := r2.1 }
    «example» := { summary := exampleSummary, sourceText := r3.1 }
    point2 := { summary := point2Summary, sourceText := r4.1 } }

/-- Model of `shortened.lastIndexOf(" ")`: the index of the last space, or
`none` when there is no space (JavaScript returns `-1` there). -/
def lastIndexOfSpace : Str → Option Nat
  | [] => none
  | c :: rest =>
    match lastIndexOfSpace rest with
    | some i => some (i + 1)
    | none => if c = ' ' then some 0 else none

/-- Model of `extractKeyPhrase(text, maxLen)` from `generateBestPractice`. -/
def extractKeyPhrase (text : Str) (maxLen : Nat) : Str :=
  if text.length ≤ maxLen then text
  else
    let shortened := text.take maxLen
    match lastIndexOfSpace shortened with
    | some i => if 0 < i then shortened.take i ++ ("...").data else shortened ++ ("...").data
    | none => shortened ++ ("...").data

/-- `extractKeyPhrase` at its default `maxLen = 50`. -/
def extractKeyPhraseD (text : Str) : Str :=
  extractKeyPhrase text 50

/-- Model of `generateBestPractice(title, aiAnalysis)` from
`src/app/api/scrape/route.ts`.  Reading `.length` of an `undefined` sourceText
would throw a `TypeError` in JavaScript, which is modelled by `none`. -/
def generateBestPractice (title : Str) (a : AiPrepAnalysis) : Option BestPractice :=
  let cleanTitle := stripTag title
  match a.reason.sourceText, a.«example».sourceText, a.point2.sourceText with
  | some r, some e, some p2 =>
    some
      { point1 := ("이 사설의 핵심 주장은 \"").data ++ cleanTitle ++
          ("\"입니다. 필자는 현재 정책/법안의 근본적인 결함을 지적하며, 이에 대한 재검토가 필요하다고 주장합니다.").data
        reason := ("주장의 근거로는 ").data ++ extractKeyPhrase r 80 ++
          ("를 제시합니다. 이는 정책의 모호함과 불명확한 기준이 실제 현장에서 혼란을 야기할 수 있음을 보여줍니다.").data
        «example» := ("구체적인 사례로 ").data ++ extractKeyPhrase e 80 ++
          ("를 들어 주장을 뒷받침합니다. 이러한 실제 사례는 이론적 비판을 넘어 현실적인 문제점을 부각시킵니다.").data
        point2 := ("결론적으로, 필자는 ").data ++ extractKeyPhrase p2 60 ++
          ("라고 강조합니다. 미봉책이 아닌 근본적인 해결책이 필요하다는 것이 이 사설의 핵심 메시지입니다.").data }
  | _, _, _ => none

/-- Amended specification of the point1 candidate selection, following the
claim's words except that the tag is stripped at its first occurrence (as the
code does) rather than only as a prefix: the first sentence containing a title
keyword, else the first sentence, else the empty string. -/
def point1SpecFirstOccur (content title : Str) : Str :=
  match (splitSentences content).find? (point1Pred (titleKeywordsOf title)) with
  | some s => s
  | none => (splitSentences content).headD []

/-- Literal specification of the claim's words for the point1 candidate: the
`[사설]` tag is stripped only when it is a prefix of the title. -/
def point1SpecPrefixOnly (content title : Str) : Str :=
  match (splitSentences content).find? (point1Pred ((splitSeps
      (if isPrefixB tagChars title then (title.drop tagChars.length).dropWhile isWS
       else title)).filter (fun w => 2 < w.length))) with
  | some s => s
  | none => (splitSentences content).headD []

/-- Concrete content for the C1 counterexample: four distinct usable sentences,
the last of which is the only one containing the title keyword. -/
def c1Content : Str := ("aaaaaaaaaaaa. bbbbbbbbbbbb. cccccccccccc. kkkkk ddddddd.").data

/-- Concrete title for the C1 counterexample. -/
def c1Title : Str := ("[사설] kkkkk").data

/-- A content with exactly one usable sentence, on which point1 and point2
end up holding identical text. -/
def dupContent : Str := ("aaaaa bbbbbb.").data

/-- The title of the C3 scenario. -/
def c3Title : Str := ("[사설] 모호한 정책").data

/-- The single title keyword extracted from the C3 scenario's title. -/
def kwMohohan : Str := ("모호한").data

/-- The reason keyword required of sentence 2 in the C3 scenario. -/
def kwMunje : Str := ("문제").data

/-- The conclusion keyword required of the last sentence in the C3 scenario. -/
def kwPiryo : Str := ("필요").data

/-- Sentence 1 of the concrete C3 witness content (no keyword of any list). -/
def c3s0 : Str := ("가나다라마바사아자차카타.").data

/-- Sentence 2 of the concrete C3 witness content (contains 문제). -/
def c3s1 : Str := ("이것이 바로 문제라고 본다.").data

/-- Sentence 3 of the concrete C3 witness content (no keyword of any list). -/
def c3s2 : Str := ("셋째 글월이 여기에 이어진다.").data

/-- Sentence 4 of the concrete C3 witness content (contains 필요). -/
def c3s3 : Str := ("마지막으로 점검이 필요하다고 본다.").data

/-- The concrete C3 witness content: the four sentences joined by spaces. -/
def c3Content : Str := c3s0 ++ [' '] ++ c3s1 ++ [' '] ++ c3s2 ++ [' '] ++ c3s3

/-- Concrete content for the C6 counterexample: the first sentence contains the
literal tag, the second contains the keyword surviving tag removal. -/
def c6Content : Str := ("z [사설] zzzzzzz. ww ayyyy wwwwww.").data

/-- Concrete title for the C6 counterexample: the tag occurs mid-string. -/
def c6Title : Str := ("xx [사설] ayyyy").data

/-- Content with a single usable sentence, for the C4 witness. -/
def c4Content : Str := ("aaaaaaaaaaaa.").data

/-- A distinctive short point1 source text for the C9 counterexample. -/
def c9Src : Str := ("q0q0q0q0q0q0").data

/-- A concrete analysis for the C9 counterexample, with string source texts. -/
def c9Analysis : AiPrepAnalysis :=
  { point1 := { summary := [], sourceText := some c9Src }
    reason := { summary := [], sourceText := some (("rrrr").data) }
    «example» := { summary := [], sourceText := some (("eeee").data) }
    point2 := { summary := [], sourceText := some (("pppp").data) } }

/-- A concrete title for the C9 counterexample. -/
def c9Title : Str := ("tt").data

/-! ## General lemmas about the sentence splitter -/

theorem trimChars_length_le (s : Str) : (trimChars s).length ≤ s.length := by
  unfold trimChars
  calc ((s.dropWhile isWS).reverse.dropWhile isWS).reverse.length
      = ((s.dropWhile isWS).reverse.dropWhile isWS).length := by
        simp
    _ ≤ (s.dropWhile isWS).reverse.length := (List.dropWhile_suffix isWS).length_le
    _ = (s.dropWhile isWS).length := by simp
    _ ≤ s.length := (List.dropWhile_suffix isWS).length_le

theorem mem_splitSentences_trim {c s : Str} (h : s ∈ splitSentences c) :
    10 < (trimChars s).length :=
  of_decide_eq_true (List.mem_filter.mp h).2

theorem mem_splitSentences_ne_nil {c s : Str} (h : s ∈ splitSentences c) : s ≠ [] := by
  have h1 := mem_splitSentences_trim h
  intro he
  subst he
  have h2 : (trimChars ([] : Str)).length = 0 := rfl
  omega

/-! ## Easy claims: the length filter and determinism -/

/-- C4: every sentence produced by the sentence splitter (the split of content
after `.`, `!` or `?` followed by whitespace, then filtered) has trimmed length
strictly greater than 10. -/
theorem claim_c4 (content s : Str) (h : s ∈ splitSentences content) :
    10 < (trimChars s).length :=
  mem_splitSentences_trim h

theorem claim_c4_witness :
    ("aaaaaaaaaaaa.").data ∈ splitSentences c4Content ∧
      10 < (trimChars (("aaaaaaaaaaaa.").data)).length := by
  refine ⟨by decide, claim_c4 c4Content _ (by decide)⟩

/-- C5 (code bug evaluation): on empty content the sentence list is empty and
the first three roles receive the empty string, but point2's fallback scan
starts at index `sentences.length - 1 = -1`, reads `sentences[-1] = undefined`
and returns it, so point2's sourceText is `undefined` (modelled `none`), not
the empty string; the same happens for whitespace-only content. -/
theorem claim_c5 :
    splitSentences [] = [] ∧
      (analyzePREP [] []).point1.sourceText = some [] ∧
      (analyzePREP [] []).reason.sourceText = some [] ∧
      (analyzePREP [] []).«example».sourceText = some [] ∧
      (analyzePREP [] []).point2.sourceText = none ∧
      (analyzePREP ((" \t ").data) []).point2.sourceText = none := by
  decide

/-- C8: the classifier is deterministic — two evaluations of `analyzePREP` on
equal `(content, title)` inputs agree on all four summary and sourceText
fields. -/
theorem claim_c8 (c1 c2 t1 t2 : Str) (hc : c1 = c2) (ht : t1 = t2) :
    (analyzePREP c1 t1).point1.summary = (analyzePREP c2 t2).point1.summary ∧
      (analyzePREP c1 t1).point1.sourceText = (analyzePREP c2 t2).point1.sourceText ∧
      (analyzePREP c1 t1).reason.summary = (analyzePREP c2 t2).reason.summary ∧
      (analyzePREP c1 t1).reason.sourceText = (analyzePREP c2 t2).reason.sourceText ∧
      (analyzePREP c1 t1).«example».summary = (analyzePREP c2 t2).«example».summary ∧
      (analyzePREP c1 t1).«example».sourceText = (analyzePREP c2 t2).«example».sourceText ∧
      (analyzePREP c1 t1).point2.summary = (analyzePREP c2 t2).point2.summary ∧
      (analyzePREP c1 t1).point2.sourceText = (analyzePREP c2 t2).point2.sourceText := by
  subst hc
  subst ht
  exact ⟨rfl, rfl, rfl, rfl, rfl, rfl, rfl, rfl⟩

theorem claim_c8_witness :
    (analyzePREP dupContent []).point1.summary = (analyzePREP dupContent []).point1.summary ∧
      (analyzePREP dupContent []).point1.sourceText = (analyzePREP dupContent []).point1.sourceText ∧
      (analyzePREP dupContent []).reason.summary = (analyzePREP dupContent []).reason.summary ∧
      (analyzePREP dupContent []).reason.sourceText = (analyzePREP dupContent []).reason.sourceText ∧
      (analyzePREP dupContent []).«example».summary = (analyzePREP dupContent []).«example».summary ∧
      (analyzePREP dupContent []).«example».sourceText = (analyzePREP dupContent []).«example».sourceText ∧
      (analyzePREP dupContent []).point2.summary = (analyzePREP dupContent []).point2.summary ∧
      (analyzePREP dupContent []).point2.sourceText = (analyzePREP dupContent []).point2.sourceText :=
  claim_c8 dupContent dupContent [] [] rfl rfl

/-! ## Lemmas about the fallback scan of `getUniqueSentence` -/

theorem scanFuel_not_mem (ss : List Str) (used : List JStr) :
    ∀ (n : Nat) (i : Int) (v : JStr), scanFuel ss used n i = some v → v ∉ used := by
  intro n
  induction n with
  | zero => intro i v h; exact absurd h (by simp [scanFuel])
  | succ n ih =>
    intro i v h
    simp only [scanFuel] at h
    by_cases hlt : i < (ss.length : Int)
    · rw [if_pos hlt] at h
      by_cases hm : jsNth ss i ∈ used
      · rw [if_pos hm] at h
        exact ih _ _ h
      · rw [if_neg hm] at h
        injection h with h
        subst h
        exact hm
    · rw [if_neg hlt] at h
      cases h

theorem scanFuel_shape (ss : List Str) (used : List JStr) :
    ∀ (n : Nat) (i : Int) (v : JStr), scanFuel ss used n i = some v →
      v = none ∨ ∃ s, s ∈ ss ∧ v = some s := by
  intro n
  induction n with
  | zero => intro i v h; exact absurd h (by simp [scanFuel])
  | succ n ih =>
    intro i v h
    simp only [scanFuel] at h
    by_cases hlt : i < (ss.length : Int)
    · rw [if_pos hlt] at h
      by_cases hm : jsNth ss i ∈ used
      · rw [if_pos hm] at h
        exact ih _ _ h
      · rw [if_neg hm] at h
        injection h with h
        subst h
        unfold jsNth
        by_cases hnn : 0 ≤ i
        · rw [if_pos hnn]
          cases hk : ss[i.toNat]? with
          | none => exact Or.inl rfl
          | some x => exact Or.inr ⟨x, List.getElem?_mem hk, rfl⟩
        · rw [if_neg hnn]
          exact Or.inl rfl
    · rw [if_neg hlt] at h
      cases h

theorem scanFuel_eq_firstUnclaimed (ss : List Str) (used : List JStr) :
    ∀ (n : Nat) (i : Int), 0 ≤ i → (ss.length : Int) - i ≤ (n : Int) →
      scanFuel ss used n i = (firstUnclaimed ss used i.toNat).map some := by
  intro n
  induction n with
  | zero =>
    intro i hnn hb
    have hge : ss.length ≤ i.toNat := by omega
    simp [scanFuel, firstUnclaimed, List.drop_eq_nil_of_le hge]
  | succ n ih =>
    intro i hnn hb
    simp only [scanFuel]
    by_cases hlt : i < (ss.length : Int)
    · rw [if_pos hlt]
      have hi : i.toNat < ss.length := by omega
      have hdrop : ss.drop i.toNat = ss[i.toNat] :: ss.drop (i.toNat + 1) :=
        List.drop_eq_getElem_cons hi
      have hnth : jsNth ss i = some ss[i.toNat] := by
        unfold jsNth
        rw [if_pos hnn, List.getElem?_eq_getElem hi]
      by_cases hm : jsNth ss i ∈ used
      · rw [if_pos hm]
        have hmm : some ss[i.toNat] ∈ used := by rwa [hnth] at hm
        have hfind : firstUnclaimed ss used i.toNat = firstUnclaimed ss used (i.toNat + 1) := by
          unfold firstUnclaimed
          rw [hdrop, List.find?_cons_of_neg]
          simp [hmm]
        rw [hfind]
        have htn : (i + 1).toNat = i.toNat + 1 := by omega
        rw [ih (i + 1) (by omega) (by omega), htn]
      · rw [if_neg hm]
        have hmm : some ss[i.toNat] ∉ used := by rwa [hnth] at hm
        have hfind : firstUnclaimed ss used i.toNat = some ss[i.toNat] := by
          unfold firstUnclaimed
          rw [hdrop, List.find?_cons_of_pos]
          simp [hmm]
        rw [hfind, hnth]
        rfl
    · rw [if_neg hlt]
      have hge : ss.length ≤ i.toNat := by omega
      simp [firstUnclaimed, List.drop_eq_nil_of_le hge]

theorem scanUnused_eq (ss : List Str) (used : List JStr) (i : Int) (h : 0 ≤ i) :
    scanUnused ss used i = (firstUnclaimed ss used i.toNat).map some := by
  unfold scanUnused
  exact scanFuel_eq_firstUnclaimed ss used _ i h (by omega)

theorem scanUnused_not_mem {ss : List Str} {used : List JStr} {i : Int} {v : JStr}
    (h : scanUnused ss used i = some v) : v ∉ used :=
  scanFuel_not_mem ss used _ i v h

theorem scanUnused_shape {ss : List Str} {used : List JStr} {i : Int} {v : JStr}
    (h : scanUnused ss used i = some v) : v = none ∨ ∃ s, s ∈ ss ∧ v = some s :=
  scanFuel_shape ss used _ i v h

theorem scanUnused_none_of_ge (ss : List Str) (used : List JStr) {i : Int}
    (h : (ss.length : Int) ≤ i) : scanUnused ss used i = none := by
  unfold scanUnused
  have h0 : ((ss.length : Int) - i).toNat = 0 := by omega
  rw [h0]
  rfl

/-! ## Lemmas about `getUniqueSentence` -/

theorem getUniqueSentence_pref {ss : List Str} {used : List JStr} {pref : Str} (idx : Int)
    (h1 : pref ≠ []) (h2 : some pref ∉ used) :
    getUniqueSentence ss used pref idx = (some pref, some pref :: used) := by
  unfold getUniqueSentence
  rw [if_pos ⟨h1, h2⟩]

theorem getUniqueSentence_scan_some {ss : List Str} {used : List JStr} {pref : Str}
    {idx : Int} {v : JStr} (h : ¬(pref ≠ [] ∧ some pref ∉ used))
    (hs : scanUnused ss used idx = some v) :
    getUniqueSentence ss used pref idx = (v, v :: used) := by
  unfold getUniqueSentence
  rw [if_neg h, hs]

theorem getUniqueSentence_scan_none {ss : List Str} {used : List JStr} {pref : Str}
    {idx : Int} (h : ¬(pref ≠ [] ∧ some pref ∉ used))
    (hs : scanUnused ss used idx = none) :
    getUniqueSentence ss used pref idx = (some pref, used) := by
  unfold getUniqueSentence
  rw [if_neg h, hs]

theorem getUniqueSentence_cases (ss : List Str) (used : List JStr) (pref : Str) (idx : Int) :
    ((getUniqueSentence ss used pref idx).1 ∉ used ∧
      (getUniqueSentence ss used pref idx).2 = (getUniqueSentence ss used pref idx).1 :: used) ∨
    ((getUniqueSentence ss used pref idx).1 = some pref ∧
      (getUniqueSentence ss used pref idx).2 = used ∧
      scanUnused ss used idx = none ∧ (pref = [] ∨ some pref ∈ used)) := by
  by_cases h : pref ≠ [] ∧ some pref ∉ used
  · left
    rw [getUniqueSentence_pref idx h.1 h.2]
    exact ⟨h.2, rfl⟩
  · cases hs : scanUnused ss used idx with
    | some v =>
      left
      rw [getUniqueSentence_scan_some h hs]
      exact ⟨scanUnused_not_mem hs, rfl⟩
    | none =>
      right
      rw [getUniqueSentence_scan_none h hs]
      refine ⟨rfl, rfl, rfl, ?_⟩
      by_cases hp : pref = []
      · exact Or.inl hp
      · right
        by_contra hmem
        exact h ⟨hp, hmem⟩

theorem getUniqueSentence_subset (ss : List Str) (used : List JStr) (pref : Str) (idx : Int) :
    used ⊆ (getUniqueSentence ss used pref idx).2 := by
  rcases getUniqueSentence_cases ss used pref idx with hc | hc
  · rw [hc.2]
    exact List.subset_cons_self _ _
  · rw [hc.2.1]
    exact List.Subset.refl _

theorem getUniqueSentence_fst_ne_none {ss : List Str} {used : List JStr} {pref : Str}
    {idx : Int} (h : 0 ≤ idx) : (getUniqueSentence ss used pref idx).1 ≠ none := by
  by_cases h1 : pref ≠ [] ∧ some pref ∉ used
  · rw [getUniqueSentence_pref idx h1.1 h1.2]
    simp
  · cases hs : scanUnused ss used idx with
    | none =>
      rw [getUniqueSentence_scan_none h1 hs]
      simp
    | some v =>
      rw [getUniqueSentence_scan_some h1 hs]
      have := hs
      rw [scanUnused_eq ss used idx h] at this
      rcases hfu : firstUnclaimed ss used idx.toNat with _ | w
      · rw [hfu] at this
        cases this
      · rw [hfu] at this
        injection this with this
        subst this
        simp

theorem getUniqueSentence_live {ss : List Str} {used : List JStr} (pref : Str) {idx : Int}
    (h0 : 0 ≤ idx) (h : ∃ s, s ∈ ss.drop idx.toNat ∧ some s ∉ used) :
    (getUniqueSentence ss used pref idx).1 ∉ used ∧
      (getUniqueSentence ss used pref idx).2 = (getUniqueSentence ss used pref idx).1 :: used := by
  rcases getUniqueSentence_cases ss used pref idx with hc | hc
  · exact ⟨hc.1, hc.2⟩
  · exfalso
    have hnone := hc.2.2.1
    rw [scanUnused_eq ss used idx h0] at hnone
    have hfu : firstUnclaimed ss used idx.toNat = none := by
      rcases hfu : firstUnclaimed ss used idx.toNat with _ | w
      · rfl
      · rw [hfu] at hnone
        cases hnone
    obtain ⟨s, hs, hns⟩ := h
    have := List.find?_eq_none.mp hfu s hs
    simp at this
    exact hns this

theorem getUniqueSentence_fst_shape (ss : List Str) (used : List JStr) (pref : Str) (idx : Int)
    (hp : pref = [] ∨ pref ∈ ss) :
    (getUniqueSentence ss used pref idx).1 = none ∨
      (getUniqueSentence ss used pref idx).1 = some [] ∨
      ∃ s, s ∈ ss ∧ (getUniqueSentence ss used pref idx).1 = some s := by
  by_cases h1 : pref ≠ [] ∧ some pref ∉ used
  · rw [getUniqueSentence_pref idx h1.1 h1.2]
    rcases hp with hp | hp
    · exact Or.inr (Or.inl (by rw [hp]))
    · exact Or.inr (Or.inr ⟨pref, hp, rfl⟩)
  · cases hs : scanUnused ss used idx with
    | none =>
      rw [getUniqueSentence_scan_none h1 hs]
      rcases hp with hp | hp
      · exact Or.inr (Or.inl (by rw [hp]))
      · exact Or.inr (Or.inr ⟨pref, hp, rfl⟩)
    | some v =>
      rw [getUniqueSentence_scan_some h1 hs]
      rcases scanUnused_shape hs with hv | ⟨s, hmem, hv⟩
      · exact Or.inl hv
      · exact Or.inr (Or.inr ⟨s, hmem, hv⟩)

/-! ## Lemmas about the preferred candidates -/

theorem jsOrChain_find_shape (ss : List Str) (p : Str → Bool) (k : Nat) :
    jsOrChain (ss.find? p) ss[k]? = [] ∨ jsOrChain (ss.find? p) ss[k]? ∈ ss := by
  cases hf : ss.find? p with
  | some s =>
    simp only [jsOrChain]
    by_cases he : s.isEmpty
    · rw [if_pos he]
      cases hk : ss[k]? with
      | some x => exact Or.inr (List.getElem?_mem hk)
      | none => exact Or.inl rfl
    · rw [if_neg he]
      exact Or.inr (List.mem_of_find?_eq_some hf)
  | none =>
    simp only [jsOrChain]
    cases hk : ss[k]? with
    | some x => exact Or.inr (List.getElem?_mem hk)
    | none => exact Or.inl rfl

theorem jsOrChain_find_ne_nil {ss : List Str} (hall : ∀ x, x ∈ ss → x ≠ []) {k : Nat}
    (hk : k < ss.length) (p : Str → Bool) : jsOrChain (ss.find? p) ss[k]? ≠ [] := by
  cases hf : ss.find? p with
  | some s =>
    simp only [jsOrChain]
    have hs : s ∈ ss := List.mem_of_find?_eq_some hf
    have he : ¬ s.isEmpty := by
      simp only [List.isEmpty_iff]
      exact hall s hs
    rw [if_neg he]
    exact hall s hs
  | none =>
    simp only [jsOrChain]
    rw [List.getElem?_eq_getElem hk]
    exact hall _ (List.getElem_mem hk)

theorem point1PrefOf_shape (c t : Str) :
    point1PrefOf c t = [] ∨ point1PrefOf c t ∈ splitSentences c :=
  jsOrChain_find_shape (splitSentences c) _ 0

theorem reasonPrefOf_shape (c : Str) :
    reasonPrefOf c = [] ∨ reasonPrefOf c ∈ splitSentences c :=
  jsOrChain_find_shape (splitSentences c) _ 1

theorem examplePrefOf_shape (c : Str) :
    examplePrefOf c = [] ∨ examplePrefOf c ∈ splitSentences c :=
  jsOrChain_find_shape (splitSentences c) _ 2

theorem point2PrefOf_shape (c : Str) :
    point2PrefOf c = [] ∨ point2PrefOf c ∈ splitSentences c :=
  jsOrChain_find_shape (splitSentences c) _ _

theorem prefOf_nil_of_nil {c : Str} (h : splitSentences c = []) (t : Str) :
    point1PrefOf c t = [] ∧ reasonPrefOf c = [] ∧ examplePrefOf c = [] ∧
      point2PrefOf c = [] := by
  unfold point1PrefOf reasonPrefOf examplePrefOf point2PrefOf
  rw [h]
  exact ⟨rfl, rfl, rfl, rfl⟩

/-! ## Reduction of `analyzePREP` to the threaded de-duplication chain -/

theorem analyzePREP_sourceTexts (c t : Str) :
    (analyzePREP c t).point1.sourceText =
      (getUniqueSentence (splitSentences c) [] (point1PrefOf c t) 0).1 ∧
    (analyzePREP c t).reason.sourceText =
      (getUniqueSentence (splitSentences c)
        (getUniqueSentence (splitSentences c) [] (point1PrefOf c t) 0).2
        (reasonPrefOf c) 1).1 ∧
    (analyzePREP c t).«example».sourceText =
      (getUniqueSentence (splitSentences c)
        (getUniqueSentence (splitSentences c)
          (getUniqueSentence (splitSentences c) [] (point1PrefOf c t) 0).2
          (reasonPrefOf c) 1).2
        (examplePrefOf c) 2).1 ∧
    (analyzePREP c t).point2.sourceText =
      (getUniqueSentence (splitSentences c)
        (getUniqueSentence (splitSentences c)
          (getUniqueSentence (splitSentences c)
            (getUniqueSentence (splitSentences c) [] (point1PrefOf c t) 0).2
            (reasonPrefOf c) 1).2
          (examplePrefOf c) 2).2
        (point2PrefOf c) (((splitSentences c).length : Int) - 1)).1 :=
  ⟨rfl, rfl, rfl, rfl⟩

/-! ## The sentence splitter produces contiguous slices of the input -/

theorem splitRun_slice (l : Str) :
    ∀ (st : Option Str) (s : Str), s ∈ splitRun l st →
      s <:+: ((match st with | some acc => acc.reverse | none => []) ++ l) := by
  induction l with
  | nil =>
    intro st s hs
    cases st with
    | some acc =>
      simp only [splitRun, List.mem_singleton] at hs
      subst hs
      simp only [List.append_nil]
      exact List.infix_refl acc.reverse
    | none =>
      simp only [splitRun, List.mem_singleton] at hs
      subst hs
      exact List.nil_infix
  | cons c rest ih =>
    intro st s hs
    cases st with
    | some acc =>
      simp only [splitRun] at hs
      by_cases hcond : (isWS c && punctHead acc) = true
      · rw [if_pos hcond] at hs
        rcases List.mem_cons.mp hs with h | h
        · subst h
          exact (List.prefix_append acc.reverse (c :: rest)).isInfix
        · have h1 := ih none s h
          simp only [List.nil_append] at h1
          exact h1.trans ((List.suffix_cons c rest).trans
            (List.suffix_append acc.reverse (c :: rest))).isInfix
      · rw [if_neg hcond] at hs
        have h1 := ih (some (c :: acc)) s hs
        simpa [List.reverse_cons, List.append_assoc] using h1
    | none =>
      simp only [splitRun] at hs
      by_cases hws : isWS c = true
      · rw [if_pos hws] at hs
        have h1 := ih none s hs
        simp only [List.nil_append] at h1 ⊢
        exact h1.trans (List.suffix_cons c rest).isInfix
      · rw [if_neg hws] at hs
        have h1 := ih (some [c]) s hs
        simpa using h1

theorem mem_splitSentences_slice {c s : Str} (h : s ∈ splitSentences c) : s <:+: c := by
  have h1 : s ∈ splitRun c (some []) := (List.mem_filter.mp h).1
  have h2 := splitRun_slice c (some []) s h1
  simpa using h2

/-! ## C2: semantics of the de-duplication pass -/

/-- C2 (amended): the de-duplication pass processes point1, reason, example,
point2 in this order with fallback start indices 0, 1, 2 and
`sentences.length - 1`; a role receives its preferred candidate when it is
non-empty and unclaimed, otherwise the first unclaimed sentence at or after its
fallback start index, otherwise its preferred candidate unchanged, and a start
index at or beyond the list length returns the preferred candidate — but on an
empty sentence list point2's start index is `-1`, not at-or-beyond the length,
and the scan returns `undefined` instead of the preferred value (see the
counterexample); with fewer than 4 unique usable sentences two roles can hold
identical text. -/
theorem claim_c2 :
    (∀ (ss : List Str) (used : List JStr) (pref : Str) (idx : Int),
      (pref ≠ [] → some pref ∉ used →
        getUniqueSentence ss used pref idx = (some pref, some pref :: used)) ∧
      ((pref = [] ∨ some pref ∈ used) → 0 ≤ idx →
        (∀ w, firstUnclaimed ss used idx.toNat = some w →
          getUniqueSentence ss used pref idx = (some w, some w :: used)) ∧
        (firstUnclaimed ss used idx.toNat = none →
          getUniqueSentence ss used pref idx = (some pref, used))) ∧
      ((ss.length : Int) ≤ idx → (getUniqueSentence ss used pref idx).1 = some pref)) ∧
    (∀ content title : Str,
      (analyzePREP content title).point1.sourceText =
        (getUniqueSentence (splitSentences content) [] (point1PrefOf content title) 0).1 ∧
      (analyzePREP content title).reason.sourceText =
        (getUniqueSentence (splitSentences content)
          (getUniqueSentence (splitSentences content) [] (point1PrefOf content title) 0).2
          (reasonPrefOf content) 1).1 ∧
      (analyzePREP content title).«example».sourceText =
        (getUniqueSentence (splitSentences content)
          (getUniqueSentence (splitSentences content)
            (getUniqueSentence (splitSentences content) [] (point1PrefOf content title) 0).2
            (reasonPrefOf content) 1).2
          (examplePrefOf content) 2).1 ∧
      (analyzePREP content title).point2.sourceText =
        (getUniqueSentence (splitSentences content)
          (getUniqueSentence (splitSentences content)
            (getUniqueSentence (splitSentences content)
              (getUniqueSentence (splitSentences content) [] (point1PrefOf content title) 0).2
              (reasonPrefOf content) 1).2
            (examplePrefOf content) 2).2
          (point2PrefOf content) (((splitSentences content).length : Int) - 1)).1) ∧
    ((analyzePREP dupContent []).point1.sourceText =
        (analyzePREP dupContent []).point2.sourceText ∧
      (splitSentences dupContent).length = 1) := by
  refine ⟨?_, fun c t => analyzePREP_sourceTexts c t, by decide⟩
  intro ss used pref idx
  refine ⟨fun h1 h2 => getUniqueSentence_pref idx h1 h2, ?_, ?_⟩
  · intro h hidx
    have hne : ¬(pref ≠ [] ∧ some pref ∉ used) := by
      rcases h with h | h
      · exact fun hc => hc.1 h
      · exact fun hc => hc.2 h
    constructor
    · intro w hw
      have hs : scanUnused ss used idx = some (some w) := by
        rw [scanUnused_eq ss used idx hidx, hw]
        rfl
      exact getUniqueSentence_scan_some hne hs
    · intro hw
      have hs : scanUnused ss used idx = none := by
        rw [scanUnused_eq ss used idx hidx, hw]
        rfl
      exact getUniqueSentence_scan_none hne hs
  · intro hge
    have hs := scanUnused_none_of_ge ss used hge
    by_cases h1 : pref ≠ [] ∧ some pref ∉ used
    · rw [getUniqueSentence_pref idx h1.1 h1.2]
    · rw [getUniqueSentence_scan_none h1 hs]

theorem claim_c2_witness :
    getUniqueSentence ([] : List Str) [] ['a'] 0 = (some ['a'], [some ['a']]) :=
  (claim_c2.1 [] [] ['a'] 0).1 (by decide) (by decide)

/-- C2 counterexample: on empty content point2's preferred candidate is the
empty string, yet `analyzePREP` does not return it for point2 — the fallback
scan starting at index `-1` returns `sentences[-1] = undefined` instead. -/
theorem claim_c2_cex :
    point2PrefOf [] = [] ∧
      (analyzePREP [] (("t").data)).point2.sourceText ≠ some (point2PrefOf []) := by
  decide

/-! ## C6: the point1 preferred candidate -/

theorem point1_sourceText_eq (c t : Str) :
    (analyzePREP c t).point1.sourceText = some (point1PrefOf c t) := by
  rw [(analyzePREP_sourceTexts c t).1]
  by_cases hss : splitSentences c = []
  · have hp1 := (prefOf_nil_of_nil hss t).1
    rw [hss, hp1]
    decide
  · have hne : point1PrefOf c t ≠ [] := by
      unfold point1PrefOf
      exact jsOrChain_find_ne_nil (fun x hx => mem_splitSentences_ne_nil hx)
        (List.length_pos.mpr hss) _
    rw [getUniqueSentence_pref 0 hne (by simp)]

theorem point1PrefOf_eq_spec (c t : Str) :
    point1PrefOf c t = point1SpecFirstOccur c t := by
  unfold point1PrefOf point1SpecFirstOccur
  cases hf : (splitSentences c).find? (point1Pred (titleKeywordsOf t)) with
  | some s =>
    simp only [jsOrChain]
    have hs : s ∈ splitSentences c := List.mem_of_find?_eq_some hf
    have he : ¬ s.isEmpty := by
      simp only [List.isEmpty_iff]
      exact mem_splitSentences_ne_nil hs
    rw [if_neg he]
  | none =>
    simp only [jsOrChain]
    cases splitSentences c with
    | nil => rfl
    | cons a l => simp

/-- C6 (amended): point1's sourceText is always the preferred candidate
described by the claim — title keywords from removing the first occurrence of
the `[사설]` tag (with trailing whitespace), splitting on whitespace and
commas, keeping tokens longer than 2 characters; then the first sentence
containing a keyword, else the first sentence, else the empty string.  The
amendment: the code removes the tag at its first occurrence anywhere in the
title, not only as a prefix. -/
theorem claim_c6 (content title : Str) :
    (analyzePREP content title).point1.sourceText =
      some (point1SpecFirstOccur content title) := by
  rw [point1_sourceText_eq, point1PrefOf_eq_spec]

/-- C6 counterexample: for a title carrying the tag mid-string, prefix-only
stripping keeps `[사설]` as a keyword and would select the first sentence,
while the code removes the tag and selects the second sentence. -/
theorem claim_c6_cex :
    (analyzePREP c6Content c6Title).point1.sourceText ≠
        some (point1SpecPrefixOnly c6Content c6Title) ∧
      (analyzePREP c6Content c6Title).point1.sourceText =
        some (point1SpecFirstOccur c6Content c6Title) := by
  decide

/-! ## C7: totality and the undefined point2 case -/

/-- C7 (amended): `analyzePREP` is total — every input yields a value, and the
out-of-range indexing at `sentences[1]`, `sentences[2]` and
`sentences[sentences.length - 1]` yields `undefined` rather than faulting.
The sourceText of point1, reason and example is never `undefined`; point2's
sourceText is `undefined` exactly when the sentence list is empty (it is the
value read at index `-1`), so the claim's "worst case empty or duplicated
string" does not cover that case (see the counterexample). -/
theorem claim_c7 (content title : Str) :
    (analyzePREP content title).point1.sourceText ≠ none ∧
      (analyzePREP content title).reason.sourceText ≠ none ∧
      (analyzePREP content title).«example».sourceText ≠ none ∧
      ((analyzePREP content title).point2.sourceText = none ↔
        splitSentences content = []) := by
  obtain ⟨hr1, hr2, hr3, hr4⟩ := analyzePREP_sourceTexts content title
  by_cases hss : splitSentences content = []
  · obtain ⟨hp1, hp2, hp3, hp4⟩ := prefOf_nil_of_nil hss title
    refine ⟨?_, ?_, ?_, ?_⟩
    · rw [hr1, hss, hp1]
      decide
    · rw [hr2, hss, hp1, hp2]
      decide
    · rw [hr3, hss, hp1, hp2, hp3]
      decide
    · rw [hr4, hss, hp1, hp2, hp3, hp4]
      constructor
      · intro _
        rfl
      · intro _
        decide
  · refine ⟨?_, ?_, ?_, ?_⟩
    · rw [hr1]
      exact getUniqueSentence_fst_ne_none (by decide)
    · rw [hr2]
      exact getUniqueSentence_fst_ne_none (by decide)
    · rw [hr3]
      exact getUniqueSentence_fst_ne_none (by decide)
    · constructor
      · intro h
        exfalso
        have hlen : 0 < (splitSentences content).length := List.length_pos.mpr hss
        have hnn : (0 : Int) ≤ ((splitSentences content).length : Int) - 1 := by omega
        rw [hr4] at h
        exact getUniqueSentence_fst_ne_none hnn h
      · intro h
        exact absurd h hss

/-- C7 counterexample: on empty content point2's sourceText is `undefined`,
which is neither the empty string nor a duplicate of another role's text. -/
theorem claim_c7_cex :
    (analyzePREP [] (("x").data)).point2.sourceText = none ∧
      (analyzePREP [] (("x").data)).point1.sourceText = some [] ∧
      (analyzePREP [] (("x").data)).reason.sourceText = some [] ∧
      (analyzePREP [] (("x").data)).«example».sourceText = some [] ∧
      (none : JStr) ≠ some [] := by
  decide

/-! ## C10: provenance of the four sourceTexts -/

/-- C10 (amended): every sourceText of `analyzePREP` is `undefined` (possible
only for point2 on an empty sentence list, see C7), the empty string, or an
element of the sentence list; and every sentence of the list is a contiguous
substring of the content with trimmed length greater than 10. -/
theorem claim_c10 (content title : Str) :
    (∀ v : JStr,
      (v = (analyzePREP content title).point1.sourceText ∨
        v = (analyzePREP content title).reason.sourceText ∨
        v = (analyzePREP content title).«example».sourceText ∨
        v = (analyzePREP content title).point2.sourceText) →
      v = none ∨ v = some [] ∨ ∃ s, s ∈ splitSentences content ∧ v = some s) ∧
    (∀ s : Str, s ∈ splitSentences content →
      s <:+: content ∧ 10 < (trimChars s).length) := by
  obtain ⟨hr1, hr2, hr3, hr4⟩ := analyzePREP_sourceTexts content title
  constructor
  · intro v hv
    rcases hv with h | h | h | h
    · rw [h, hr1]
      exact getUniqueSentence_fst_shape _ _ _ _ (point1PrefOf_shape content title)
    · rw [h, hr2]
      exact getUniqueSentence_fst_shape _ _ _ _ (reasonPrefOf_shape content)
    · rw [h, hr3]
      exact getUniqueSentence_fst_shape _ _ _ _ (examplePrefOf_shape content)
    · rw [h, hr4]
      exact getUniqueSentence_fst_shape _ _ _ _ (point2PrefOf_shape content)
  · intro s hs
    exact ⟨mem_splitSentences_slice hs, mem_splitSentences_trim hs⟩

theorem claim_c10_witness :
    ((analyzePREP c1Content c1Title).point1.sourceText = none ∨
      (analyzePREP c1Content c1Title).point1.sourceText = some [] ∨
      ∃ s, s ∈ splitSentences c1Content ∧
        (analyzePREP c1Content c1Title).point1.sourceText = some s) ∧
      (("aaaaaaaaaaaa.").data <:+: c1Content ∧
        10 < (trimChars (("aaaaaaaaaaaa.").data)).length) :=
  ⟨(claim_c10 c1Content c1Title).1 _ (Or.inl rfl),
    (claim_c10 c1Content c1Title).2 _ (by decide)⟩

/-- C10 counterexample: on empty content the sentence list is empty, so the
claim would force point2's sourceText to be the empty string, but it is
`undefined`. -/
theorem claim_c10_cex :
    (analyzePREP [] (("y").data)).point2.sourceText ≠ some [] ∧
      splitSentences [] = [] := by
  decide

/-! ## C1: distinctness of the four roles -/

theorem dedup_chain_distinct (ss : List Str) (p1 p2 p3 p4 : Str)
    {v1 v2 v3 v4 : JStr} {u1 u2 u3 u4 : List JStr} (idx4 : Int)
    (h4 : 4 ≤ ss.length) (hnd : ss.Nodup) (hp1 : p1 ≠ []) (hp3 : p3 ≠ [])
    (hidx4 : idx4 = (ss.length : Int) - 1)
    (e1 : getUniqueSentence ss [] p1 0 = (v1, u1))
    (e2 : getUniqueSentence ss u1 p2 1 = (v2, u2))
    (e3 : getUniqueSentence ss u2 p3 2 = (v3, u3))
    (e4 : getUniqueSentence ss u3 p4 idx4 = (v4, u4)) :
    v1 ≠ v2 ∧
      ((∃ s, s ∈ ss.drop 2 ∧ some s ≠ v1 ∧ some s ≠ v2) → v3 ≠ v1 ∧ v3 ≠ v2) ∧
      ((∀ s, s ∈ ss.drop (ss.length - 1) →
          some s ≠ v1 ∧ some s ≠ v2 ∧ some s ≠ v3) →
        v4 ≠ v1 ∧ v4 ≠ v2 ∧ v4 ≠ v3) := by
  -- point1 claims its preferred candidate
  rw [getUniqueSentence_pref 0 hp1 (List.not_mem_nil _)] at e1
  injection e1 with hv1 hu1
  subst hv1
  subst hu1
  -- two distinct sentences at index 1 and beyond
  have hd1 : (ss.drop 1).Nodup := List.Nodup.sublist (List.drop_sublist _ _) hnd
  have hlen1 : 2 ≤ (ss.drop 1).length := by
    rw [List.length_drop]
    omega
  rcases hdt : ss.drop 1 with _ | ⟨x, xtl⟩
  · rw [hdt] at hlen1
    simp at hlen1
  rcases xtl with _ | ⟨y, ytl⟩
  · rw [hdt] at hlen1
    simp at hlen1
  rw [hdt] at hd1
  have hxy : x ≠ y := by
    intro he
    exact (List.nodup_cons.mp hd1).1 (he ▸ List.mem_cons_self y ytl)
  have hx : x ∈ ss.drop 1 := by
    rw [hdt]
    exact List.mem_cons_self _ _
  have hy : y ∈ ss.drop 1 := by
    rw [hdt]
    exact List.mem_cons_of_mem _ (List.mem_cons_self _ _)
  -- the reason call finds an unclaimed sentence
  have hex2 : ∃ s, s ∈ ss.drop (1 : Int).toNat ∧ some s ∉ [some p1] := by
    by_cases hcx : some x = some p1
    · refine ⟨y, hy, ?_⟩
      simp only [List.mem_singleton]
      intro hcy
      exact hxy (Option.some_injective _ (hcx.trans hcy.symm))
    · exact ⟨x, hx, by simp only [List.mem_singleton]; exact hcx⟩
  have hlive2 := getUniqueSentence_live p2 (by decide) hex2
  rw [e2] at hlive2
  dsimp only at hlive2
  obtain ⟨hne2, hu2⟩ := hlive2
  -- v2 is distinct from v1
  have h12 : some p1 ≠ v2 := by
    intro he
    exact hne2 (by rw [← he]; exact List.mem_cons_self _ _)
  refine ⟨h12, ?_, ?_⟩
  · -- example part, assuming an unclaimed sentence at index ≥ 2 exists
    intro hhyp
    obtain ⟨s, hsmem, hs1, hs2⟩ := hhyp
    have hex3 : ∃ s, s ∈ ss.drop (2 : Int).toNat ∧ some s ∉ u2 := by
      refine ⟨s, hsmem, ?_⟩
      rw [hu2]
      simp only [List.mem_cons, List.mem_singleton, List.mem_nil_iff, or_false]
      rintro (h | h)
      · exact hs2 h
      · exact hs1 h
    have hlive3 := getUniqueSentence_live p3 (by decide) hex3
    rw [e3] at hlive3
    dsimp only at hlive3
    obtain ⟨hne3, _⟩ := hlive3
    rw [hu2] at hne3
    constructor
    · intro he
      exact hne3 (by rw [he]; exact List.mem_cons_of_mem _ (List.mem_cons_self _ _))
    · intro he
      exact hne3 (by rw [he]; exact List.mem_cons_self _ _)
  · -- point2 part, assuming the last sentence is unclaimed by the first three
    intro hhyp
    -- the used set after the example call contains v1, v2, v3 and nothing else
    have hcase3 := getUniqueSentence_cases ss u2 p3 2
    rw [e3] at hcase3
    dsimp only at hcase3
    have hfacts : (some p1 ∈ u3 ∧ v2 ∈ u3 ∧ v3 ∈ u3) ∧
        (∀ z, z ∈ u3 → z = some p1 ∨ z = v2 ∨ z = v3) := by
      rcases hcase3 with hc | hc
      · obtain ⟨hnm, hcons⟩ := hc
        rw [hcons, hu2]
        refine ⟨⟨?_, ?_, ?_⟩, ?_⟩
        · exact List.mem_cons_of_mem _ (List.mem_cons_of_mem _ (List.mem_cons_self _ _))
        · exact List.mem_cons_of_mem _ (List.mem_cons_self _ _)
        · exact List.mem_cons_self _ _
        · intro z hz
          simp only [List.mem_cons, List.mem_singleton, List.mem_nil_iff, or_false] at hz
          rcases hz with h | h | h
          · exact Or.inr (Or.inr h)
          · exact Or.inr (Or.inl h)
          · exact Or.inl h
      · obtain ⟨hv3, hu3eq, _, hpref3⟩ := hc
        rcases hpref3 with h | h
        · exact absurd h hp3
        · rw [hu3eq, hu2]
          rw [hu2] at h
          refine ⟨⟨?_, ?_, ?_⟩, ?_⟩
          · exact List.mem_cons_of_mem _ (List.mem_cons_self _ _)
          · exact List.mem_cons_self _ _
          · rw [hv3]
            exact h
          · intro z hz
            simp only [List.mem_cons, List.mem_singleton, List.mem_nil_iff, or_false] at hz
            rcases hz with h | h
            · exact Or.inr (Or.inl h)
            · exact Or.inl h
    obtain ⟨⟨hm1, hm2, hm3⟩, hsub⟩ := hfacts
    -- the sentence at the last index is unclaimed
    have hlast : ∃ s, s ∈ ss.drop idx4.toNat ∧ some s ∉ u3 := by
      have hlen4 : (ss.drop (ss.length - 1)).length = 1 := by
        rw [List.length_drop]
        omega
      rcases hdz : ss.drop (ss.length - 1) with _ | ⟨z, ztl⟩
      · rw [hdz] at hlen4
        simp at hlen4
      have hz : z ∈ ss.drop (ss.length - 1) := by
        rw [hdz]
        exact List.mem_cons_self _ _
      obtain ⟨hz1, hz2, hz3⟩ := hhyp z hz
      have htn : idx4.toNat = ss.length - 1 := by omega
      refine ⟨z, by rw [htn]; exact hz, ?_⟩
      intro hmem
      rcases hsub _ hmem with h | h | h
      · exact hz1 h
      · exact hz2 h
      · exact hz3 h
    have hlive4 := getUniqueSentence_live p4 (by omega) hlast
    rw [e4] at hlive4
    dsimp only at hlive4
    obtain ⟨hne4, _⟩ := hlive4
    refine ⟨?_, ?_, ?_⟩
    · intro he
      exact hne4 (he ▸ hm1)
    · intro he
      exact hne4 (he ▸ hm2)
    · intro he
      exact hne4 (he ▸ hm3)

/-- C1 (amended): for inputs whose sentence split yields at least 4 pairwise
distinct sentences, point1 and reason always receive distinct text; example
differs from both whenever some sentence at index ≥ 2 differs from point1's and
reason's values; and point2 differs from all three whenever the last sentence
differs from the first three roles' values.  The original unconditional
pairwise-distinctness is false: when every sentence in a role's fallback scan
range is already claimed, that role keeps its already-claimed preferred
candidate (see the counterexample, where point1 = point2). -/
theorem claim_c1 (content title : Str)
    (h4 : 4 ≤ (splitSentences content).length)
    (hnd : (splitSentences content).Nodup) :
    (analyzePREP content title).point1.sourceText ≠
        (analyzePREP content title).reason.sourceText ∧
      ((∃ s, s ∈ (splitSentences content).drop 2 ∧
          some s ≠ (analyzePREP content title).point1.sourceText ∧
          some s ≠ (analyzePREP content title).reason.sourceText) →
        (analyzePREP content title).«example».sourceText ≠
            (analyzePREP content title).point1.sourceText ∧
          (analyzePREP content title).«example».sourceText ≠
            (analyzePREP content title).reason.sourceText) ∧
      ((∀ s, s ∈ (splitSentences content).drop ((splitSentences content).length - 1) →
          some s ≠ (analyzePREP content title).point1.sourceText ∧
          some s ≠ (analyzePREP content title).reason.sourceText ∧
          some s ≠ (analyzePREP content title).«example».sourceText) →
        (analyzePREP content title).point2.sourceText ≠
            (analyzePREP content title).point1.sourceText ∧
          (analyzePREP content title).point2.sourceText ≠
            (analyzePREP content title).reason.sourceText ∧
          (analyzePREP content title).point2.sourceText ≠
            (analyzePREP content title).«example».sourceText) := by
  obtain ⟨hq1, hq2, hq3, hq4⟩ := analyzePREP_sourceTexts content title
  rw [hq1, hq2, hq3, hq4]
  have hss : splitSentences content ≠ [] := by
    intro h
    rw [h] at h4
    simp at h4
  have hall : ∀ x, x ∈ splitSentences content → x ≠ [] :=
    fun x hx => mem_splitSentences_ne_nil hx
  have hp1 : point1PrefOf content title ≠ [] := by
    unfold point1PrefOf
    exact jsOrChain_find_ne_nil hall (by omega) _
  have hp3 : examplePrefOf content ≠ [] := by
    unfold examplePrefOf
    exact jsOrChain_find_ne_nil hall (by omega) _
  exact dedup_chain_distinct (splitSentences content) (point1PrefOf content title)
    (reasonPrefOf content) (examplePrefOf content) (point2PrefOf content) _
    h4 hnd hp1 hp3 rfl rfl rfl rfl rfl

/-- C1 counterexample: four pairwise distinct usable sentences where the last
sentence is the only one containing the title keyword — point1 claims it, and
point2's fallback scan (which starts at the last index) finds everything
claimed and returns the same already-claimed sentence, so point1 and point2
hold identical text. -/
theorem claim_c1_cex :
    (splitSentences c1Content).length = 4 ∧
      (splitSentences c1Content).Nodup ∧
      (analyzePREP c1Content c1Title).point1.sourceText =
        (analyzePREP c1Content c1Title).point2.sourceText := by
  decide

theorem claim_c1_witness :
    (analyzePREP c1Content []).point1.sourceText ≠
        (analyzePREP c1Content []).reason.sourceText ∧
      ((∃ s, s ∈ (splitSentences c1Content).drop 2 ∧
          some s ≠ (analyzePREP c1Content []).point1.sourceText ∧
          some s ≠ (analyzePREP c1Content []).reason.sourceText) →
        (analyzePREP c1Content []).«example».sourceText ≠
            (analyzePREP c1Content []).point1.sourceText ∧
          (analyzePREP c1Content []).«example».sourceText ≠
            (analyzePREP c1Content []).reason.sourceText) ∧
      ((∀ s, s ∈ (splitSentences c1Content).drop ((splitSentences c1Content).length - 1) →
          some s ≠ (analyzePREP c1Content []).point1.sourceText ∧
          some s ≠ (analyzePREP c1Content []).reason.sourceText ∧
          some s ≠ (analyzePREP c1Content []).«example».sourceText) →
        (analyzePREP c1Content []).point2.sourceText ≠
            (analyzePREP c1Content []).point1.sourceText ∧
          (analyzePREP c1Content []).point2.sourceText ≠
            (analyzePREP c1Content []).reason.sourceText ∧
          (analyzePREP c1Content []).point2.sourceText ≠
            (analyzePREP c1Content []).«example».sourceText) :=
  claim_c1 c1Content [] (by decide) (by decide)

/-! ## C3: the scenario with title 모호한 정책 -/

theorem dedup_chain_all_pref (ss : List Str) (p1 p2 p3 p4 : Str) (idx4 : Int)
    (h1 : p1 ≠ []) (h2 : p2 ≠ []) (h3 : p3 ≠ []) (hp4 : p4 ≠ [])
    (d12 : p1 ≠ p2) (d13 : p1 ≠ p3) (d14 : p1 ≠ p4)
    (d23 : p2 ≠ p3) (d24 : p2 ≠ p4) (d34 : p3 ≠ p4) :
    (getUniqueSentence ss [] p1 0).1 = some p1 ∧
      (getUniqueSentence ss (getUniqueSentence ss [] p1 0).2 p2 1).1 = some p2 ∧
      (getUniqueSentence ss
        (getUniqueSentence ss (getUniqueSentence ss [] p1 0).2 p2 1).2 p3 2).1 = some p3 ∧
      (getUniqueSentence ss
        (getUniqueSentence ss
          (getUniqueSentence ss (getUniqueSentence ss [] p1 0).2 p2 1).2 p3 2).2
        p4 idx4).1 = some p4 := by
  have e1 : getUniqueSentence ss [] p1 0 = (some p1, [some p1]) :=
    getUniqueSentence_pref 0 h1 (List.not_mem_nil _)
  have hm2 : some p2 ∉ [some p1] := by
    simp only [List.mem_singleton, Option.some.injEq]
    exact fun h => d12 h.symm
  have e2 : getUniqueSentence ss [some p1] p2 1 = (some p2, [some p2, some p1]) :=
    getUniqueSentence_pref 1 h2 hm2
  have hm3 : some p3 ∉ [some p2, some p1] := by
    simp only [List.mem_cons, List.mem_nil_iff, or_false, Option.some.injEq]
    push_neg
    exact ⟨Ne.symm d23, Ne.symm d13⟩
  have e3 : getUniqueSentence ss [some p2, some p1] p3 2 =
      (some p3, [some p3, some p2, some p1]) :=
    getUniqueSentence_pref 2 h3 hm3
  have hm4 : some p4 ∉ [some p3, some p2, some p1] := by
    simp only [List.mem_cons, List.mem_nil_iff, or_false, Option.some.injEq]
    push_neg
    exact ⟨Ne.symm d34, Ne.symm d24, Ne.symm d14⟩
  have e4 : getUniqueSentence ss [some p3, some p2, some p1] p4 idx4 =
      (some p4, some p4 :: [some p3, some p2, some p1]) :=
    getUniqueSentence_pref idx4 hp4 hm4
  rw [e1]
  dsimp only
  rw [e2]
  dsimp only
  rw [e3]
  dsimp only
  rw [e4]
  exact ⟨rfl, rfl, rfl, rfl⟩

/-- C3: for the title `[사설] 모호한 정책` and any content splitting into exactly
four pairwise distinct usable sentences where no sentence contains the title
keyword (모호한), sentence 2 is the first sentence with a reason keyword (it
contains 문제), no sentence matches an example pattern, and the last sentence
is the only one with a conclusion keyword (it contains 필요), `analyzePREP`
assigns point1 = sentence 1, reason = sentence 2, example = sentence 3 and
point2 = the last sentence. -/
theorem claim_c3 (content s0 s1 s2 s3 : Str)
    (hsplit : splitSentences content = [s0, s1, s2, s3])
    (hd01 : s0 ≠ s1) (hd02 : s0 ≠ s2) (hd03 : s0 ≠ s3)
    (hd12 : s1 ≠ s2) (hd13 : s1 ≠ s3) (hd23 : s2 ≠ s3)
    (ht0 : containsSub s0 kwMohohan = false) (ht1 : containsSub s1 kwMohohan = false)
    (ht2 : containsSub s2 kwMohohan = false) (ht3 : containsSub s3 kwMohohan = false)
    (hr0 : reasonPred s0 = false) (hr1 : containsSub s1 kwMunje = true)
    (he0 : examplePred s0 = false) (he1 : examplePred s1 = false)
    (he2 : examplePred s2 = false) (he3 : examplePred s3 = false)
    (hc0 : conclusionPred s0 = false) (hc1 : conclusionPred s1 = false)
    (hc2 : conclusionPred s2 = false) (hc3 : containsSub s3 kwPiryo = true) :
    (analyzePREP content c3Title).point1.sourceText = some s0 ∧
      (analyzePREP content c3Title).reason.sourceText = some s1 ∧
      (analyzePREP content c3Title).«example».sourceText = some s2 ∧
      (analyzePREP content c3Title).point2.sourceText = some s3 := by
  have hm0 : s0 ∈ splitSentences content := by rw [hsplit]; simp
  have hm1 : s1 ∈ splitSentences content := by rw [hsplit]; simp
  have hm2 : s2 ∈ splitSentences content := by rw [hsplit]; simp
  have hm3 : s3 ∈ splitSentences content := by rw [hsplit]; simp
  have hn0 := mem_splitSentences_ne_nil hm0
  have hn1 := mem_splitSentences_ne_nil hm1
  have hn2 := mem_splitSentences_ne_nil hm2
  have hn3 := mem_splitSentences_ne_nil hm3
  have hkws : titleKeywordsOf c3Title = [kwMohohan] := by decide
  have hpref1 : point1PrefOf content c3Title = s0 := by
    unfold point1PrefOf
    rw [hsplit, hkws]
    have hfind : List.find? (point1Pred [kwMohohan]) [s0, s1, s2, s3] = none := by
      apply List.find?_eq_none.mpr
      intro x hx
      simp only [List.mem_cons, List.mem_nil_iff, or_false] at hx
      rcases hx with rfl | rfl | rfl | rfl
      · simp [point1Pred, ht0]
      · simp [point1Pred, ht1]
      · simp [point1Pred, ht2]
      · simp [point1Pred, ht3]
    rw [hfind]
    rfl
  have hpref2 : reasonPrefOf content = s1 := by
    unfold reasonPrefOf
    rw [hsplit]
    have hs1r : reasonPred s1 = true := by
      unfold reasonPred
      exact List.any_eq_true.mpr ⟨kwMunje, by decide, hr1⟩
    have hfind : List.find? reasonPred [s0, s1, s2, s3] = some s1 := by
      rw [List.find?_cons_of_neg _ (by simp [hr0]), List.find?_cons_of_pos _ hs1r]
    rw [hfind]
    simp only [jsOrChain, List.isEmpty_iff]
    rw [if_neg hn1]
  have hpref3 : examplePrefOf content = s2 := by
    unfold examplePrefOf
    rw [hsplit]
    have hfind : List.find? examplePred [s0, s1, s2, s3] = none := by
      apply List.find?_eq_none.mpr
      intro x hx
      simp only [List.mem_cons, List.mem_nil_iff, or_false] at hx
      rcases hx with rfl | rfl | rfl | rfl
      · simp [he0]
      · simp [he1]
      · simp [he2]
      · simp [he3]
    rw [hfind]
    rfl
  have hpref4 : point2PrefOf content = s3 := by
    unfold point2PrefOf
    rw [hsplit]
    have hs3c : conclusionPred s3 = true := by
      unfold conclusionPred
      exact List.any_eq_true.mpr ⟨kwPiryo, by decide, hc3⟩
    have hfind : List.find? conclusionPred [s0, s1, s2, s3] = some s3 := by
      rw [List.find?_cons_of_neg _ (by simp [hc0]), List.find?_cons_of_neg _ (by simp [hc1]),
        List.find?_cons_of_neg _ (by simp [hc2]), List.find?_cons_of_pos _ hs3c]
    rw [hfind]
    simp only [jsOrChain, List.isEmpty_iff]
    rw [if_neg hn3]
  obtain ⟨hq1, hq2, hq3, hq4⟩ := analyzePREP_sourceTexts content c3Title
  rw [hq1, hq2, hq3, hq4, hsplit, hpref1, hpref2, hpref3, hpref4]
  exact dedup_chain_all_pref [s0, s1, s2, s3] s0 s1 s2 s3 _
    hn0 hn1 hn2 hn3 hd01 hd02 hd03 hd12 hd13 hd23

theorem claim_c3_witness :
    (analyzePREP c3Content c3Title).point1.sourceText = some c3s0 ∧
      (analyzePREP c3Content c3Title).reason.sourceText = some c3s1 ∧
      (analyzePREP c3Content c3Title).«example».sourceText = some c3s2 ∧
      (analyzePREP c3Content c3Title).point2.sourceText = some c3s3 :=
  claim_c3 c3Content c3s0 c3s1 c3s2 c3s3 (by decide) (by decide) (by decide)
    (by decide) (by decide) (by decide) (by decide) (by decide) (by decide)
    (by decide) (by decide) (by decide) (by decide) (by decide) (by decide)
    (by decide) (by decide) (by decide) (by decide) (by decide) (by decide)

/-! ## C9: the truncating narrative generator -/

/-- C9 (amended): in the truncating variant of the narrative generator, the
reason, example and point2 sourceTexts are wrapped in fixed template phrases
after `extractKeyPhrase` with thresholds 80, 80 and 60 (the default threshold
being 50); text of length at most the threshold is embedded unchanged, and
longer text is cut to the threshold's first characters, backed up to the last
space when one occurs at a positive index, with an ellipsis appended.  The
amendment: point1's template embeds only the tag-stripped title — point1's
sourceText is not used at all (see the counterexample). -/
theorem claim_c9 :
    (∀ (t : Str) (maxLen : Nat), t.length ≤ maxLen → extractKeyPhrase t maxLen = t) ∧
      (∀ (t : Str) (maxLen : Nat), maxLen < t.length →
        extractKeyPhrase t maxLen =
          (match lastIndexOfSpace (t.take maxLen) with
            | some i => if 0 < i then (t.take maxLen).take i else t.take maxLen
            | none => t.take maxLen) ++ ("...").data) ∧
      (∀ t : Str, extractKeyPhraseD t = extractKeyPhrase t 50) ∧
      (∀ (title : Str) (a : AiPrepAnalysis) (r e p2 : Str),
        a.reason.sourceText = some r → a.«example».sourceText = some e →
        a.point2.sourceText = some p2 →
        ∃ bp, generateBestPractice title a = some bp ∧
          bp.point1 = ("이 사설의 핵심 주장은 \"").data ++ stripTag title ++
            ("\"입니다. 필자는 현재 정책/법안의 근본적인 결함을 지적하며, 이에 대한 재검토가 필요하다고 주장합니다.").data ∧
          bp.reason = ("주장의 근거로는 ").data ++ extractKeyPhrase r 80 ++
            ("를 제시합니다. 이는 정책의 모호함과 불명확한 기준이 실제 현장에서 혼란을 야기할 수 있음을 보여줍니다.").data ∧
          bp.«example» = ("구체적인 사례로 ").data ++ extractKeyPhrase e 80 ++
            ("를 들어 주장을 뒷받침합니다. 이러한 실제 사례는 이론적 비판을 넘어 현실적인 문제점을 부각시킵니다.").data ∧
          bp.point2 = ("결론적으로, 필자는 ").data ++ extractKeyPhrase p2 60 ++
            ("라고 강조합니다. 미봉책이 아닌 근본적인 해결책이 필요하다는 것이 이 사설의 핵심 메시지입니다.").data) := by
  refine ⟨?_, ?_, fun t => rfl, ?_⟩
  · intro t maxLen h
    unfold extractKeyPhrase
    rw [if_pos h]
  · intro t maxLen h
    unfold extractKeyPhrase
    rw [if_neg (not_le.mpr h)]
    dsimp only
    cases hL : lastIndexOfSpace (t.take maxLen) with
    | none => rfl
    | some i =>
      dsimp only
      by_cases hi : 0 < i
      · rw [if_pos hi, if_pos hi]
      · rw [if_neg hi, if_neg hi]
  · intro title a r e p2 h1 h2 h3
    refine ⟨{ point1 := _, reason := _, «example» := _, point2 := _ }, ?_, rfl, rfl, rfl, rfl⟩
    simp only [generateBestPractice, h1, h2, h3]

theorem claim_c9_witness :
    ∃ bp, generateBestPractice c9Title c9Analysis = some bp ∧
      bp.point1 = ("이 사설의 핵심 주장은 \"").data ++ stripTag c9Title ++
        ("\"입니다. 필자는 현재 정책/법안의 근본적인 결함을 지적하며, 이에 대한 재검토가 필요하다고 주장합니다.").data ∧
      bp.reason = ("주장의 근거로는 ").data ++ extractKeyPhrase (("rrrr").data) 80 ++
        ("를 제시합니다. 이는 정책의 모호함과 불명확한 기준이 실제 현장에서 혼란을 야기할 수 있음을 보여줍니다.").data ∧
      bp.«example» = ("구체적인 사례로 ").data ++ extractKeyPhrase (("eeee").data) 80 ++
        ("를 들어 주장을 뒷받침합니다. 이러한 실제 사례는 이론적 비판을 넘어 현실적인 문제점을 부각시킵니다.").data ∧
      bp.point2 = ("결론적으로, 필자는 ").data ++ extractKeyPhrase (("pppp").data) 60 ++
        ("라고 강조합니다. 미봉책이 아닌 근본적인 해결책이 필요하다는 것이 이 사설의 핵심 메시지입니다.").data :=
  claim_c9.2.2.2 c9Title c9Analysis (("rrrr").data) (("eeee").data) (("pppp").data)
    rfl rfl rfl

/-- C9 counterexample: a point1 sourceText far below every threshold (so, per
the claim, to be embedded unchanged in point1's template) does not occur in
the generated point1 string at all — the truncating variant never uses
point1's sourceText. -/
theorem claim_c9_cex :
    c9Analysis.point1.sourceText = some c9Src ∧
      c9Src.length ≤ 50 ∧
      (generateBestPractice c9Title c9Analysis).map
          (fun b => containsSub b.point1 c9Src) = some false := by
  decide

theorem claim_c7_witness :
    (analyzePREP dupContent c9Title).point1.sourceText ≠ none ∧
      (analyzePREP dupContent c9Title).reason.sourceText ≠ none ∧
      (analyzePREP dupContent c9Title).«example».sourceText ≠ none ∧
      ((analyzePREP dupContent c9Title).point2.sourceText = none ↔
        splitSentences dupContent = []) :=
  claim_c7 dupContent c9Title

end PrepMaster
